import Mathlib

/-!
Verification development for the certmgr terraform provider.

The repository contains several drifted revisions of the same two
components: a certificate client (an HTTP variant in `src/unnamed/part_000`
and two curl-subprocess variants in `src/unnamed/part_001`,
`src/unnamed/part_002` and `src/internal/client/client.go`) and a lifecycle
resource controller (a string-id variant and an int64-id variant in
`src/internal/provider/certificate_resource.go`).  Each Go function that a
claim depends on is embedded below as a pure Lean function; the network, the
DNS resolver and the backing certificate store are passed in explicitly as
values (decoded responses, environments, server states).
-/

namespace CertMgr

/-- The wire record of a certificate, mirroring the Go struct `Certificate`
with fields ID, Hostname, Requestor, Start, End. -/
structure Certificate where
  id : Int
  hostname : String
  requestor : String
  start : String
  endTime : String
  deriving Repr, DecidableEq

/-- Client configuration, mirroring the Go struct `Client` (the embedded
`http.Client` handle carries no observable state and is omitted). -/
structure Client where
  host : String
  port : Int
  deriving Repr, DecidableEq

/-- The error taxonomy produced by the client operations.  Constructors map
to the Go error values: `transport` to curl/HTTP failures, `decode` to
`json.Unmarshal` failures, `notFound` to the "no certificates found for
hostname ..." error, `resolution` to `resolveFQDN` failures. -/
inductive ClientError where
  | transport (msg : String)
  | decode (msg : String)
  | notFound (hostname : String)
  | resolution (msg : String)
  deriving Repr, DecidableEq

/-- The body returned by a GET on `/krb/certmgr/staged/?hostname=...`, seen
at the decoding boundary: either the request failed in transit, or the body
did not unmarshal, or it decoded to a `stagedResponse` with a `meta` map and
an ordered `objects` list. -/
inductive FetchResult where
  | transportErr (msg : String)
  | malformed (raw : String)
  | staged (meta : List (String × String)) (objects : List Certificate)
  deriving Repr, DecidableEq

/-- `GetCertificate` of the listing-based clients (`part_000` lines 39-63 and
`part_002` lines 83-113): propagate a transport error, wrap an unmarshal
error, return `ErrNoCertificates` when `len(staged.Objects) == 0`, and
otherwise return `staged.Objects[len(staged.Objects)-1]`. -/
def GetCertificate (h : String) (resp : FetchResult) : Except ClientError Certificate :=
  match resp with
  | .transportErr m => .error (.transport m)
  | .malformed r => .error (.decode ("failed unmarshaling staged certs: " ++ r))
  | .staged _ objs =>
      if hne : objs = [] then .error (.notFound h)
      else .ok (objs.getLast hne)

/-- The staged listing the server returns for a hostname query: exactly the
staged entries whose hostname equals the query (server model, following the
spec of `GET /krb/certmgr/staged/?hostname={name}`). -/
def listStaged (server : List Certificate) (h : String) : List Certificate :=
  server.filter (fun c => c.hostname == h)

/-- Effect of `DELETE /krb/certmgr/staged/{id}/` on the staged store: the
entry carrying that id is removed (server model, following the spec of the
delete endpoint). -/
def deleteById (server : List Certificate) (i : Int) : List Certificate :=
  server.filter (fun c => !(c.id == i))

/-- Outcome of a hostname-based `DeleteCertificate` run: the staged store
afterwards, the ids for which a DELETE request was issued in order, and the
error returned to the caller, if any. -/
structure DeleteOutcome where
  server : List Certificate
  attempted : List Int
  error : Option String
  deriving Repr, DecidableEq

/-- The deletion loop of `DeleteCertificate` (`part_000` lines 94-100,
`part_002` lines 140-146): one DELETE per listed id in order; the first
failing DELETE returns its error immediately and the remaining ids are not
attempted.  `fails i = true` models the curl/DELETE call for id `i`
returning an error. -/
def deleteLoop (fails : Int → Bool) : List Certificate → List Int → DeleteOutcome
  | server, [] => ⟨server, [], none⟩
  | server, i :: rest =>
      if fails i then
        ⟨server, [i], some ("delete failed for event " ++ toString i)⟩
      else
        let o := deleteLoop fails (deleteById server i) rest
        ⟨o.server, i :: o.attempted, o.error⟩

/-- Hostname-based `DeleteCertificate` (`part_000` lines 79-103, `part_002`
lines 115-146): list the staged entries matching the hostname, then run the
deletion loop over their ids.  The listing GET and its JSON decode are taken
as successful; their failure branches return before any DELETE is issued. -/
def DeleteCertificate_byHostname (server : List Certificate) (h : String)
    (fails : Int → Bool) : DeleteOutcome :=
  deleteLoop fails server ((listStaged server h).map (fun c => c.id))

/-- Result of one curl subprocess invocation: whether the process exited
successfully, and its combined output (for the id-based delete this is the
response body with the HTTP status code appended by `-w`). -/
structure CurlResult where
  exitOk : Bool
  output : String
  deriving Repr, DecidableEq

/-- Id-based `DeleteCertificate` of `client.go` lines 111-125 (and
`part_001` lines 147-161): resolve the FQDN, run curl with `-w` appending
the HTTP status code to the output, return a wrapped error only if the
subprocess itself failed, and otherwise return the (nil) error.  The
combined output, status code included, is never inspected. -/
def DeleteCertificate_cgo (resolve : Except String String) (run : CurlResult) :
    Option String :=
  match resolve with
  | .error e => some ("failed to resolve FQDN: " ++ e)
  | .ok _ =>
      if run.exitOk then none
      else some ("curl failed; output: " ++ run.output)

/-- Go `strings.Contains(s, substr)` over character lists: some tail of `s`
has `pat` as a prefix. -/
def containsSub (pat : List Char) : List Char → Bool
  | [] => pat.isPrefixOf []
  | c :: t => pat.isPrefixOf (c :: t) || containsSub pat t

/-- Go `strings.Contains` on strings. -/
def strContains (s pat : String) : Bool :=
  containsSub pat.data s.data

/-- Go `strconv.Atoi`: an optional sign followed by at least one decimal
digit, rejecting every other string.  Range errors are not modelled: every
value `strconv` rejects as out of range lies outside `(0, 65535]` as well,
so `NewClient` fails on it either way. -/
def atoi (s : String) : Option Int :=
  let core (digits : List Char) : Option Int :=
    if digits.isEmpty then none
    else if digits.all Char.isDigit then
      some (digits.foldl (fun acc c => acc * 10 + (Int.ofNat (c.toNat - 48))) 0)
    else none
  match s.data with
  | '-' :: rest => (core rest).map (fun v => -v)
  | '+' :: rest => core rest
  | rest => core rest

/-- `NewClient` of `part_002` lines 30-37: `strconv.Atoi(port)`, failing when
the parse fails or `p <= 0 || p > 65535` (the Go message quotes the port with
`%q`; the quoting is omitted here). -/
def NewClient_p2 (host port : String) : Except String Client :=
  match atoi port with
  | none => .error ("invalid port: " ++ port)
  | some p =>
      if p ≤ 0 ∨ 65535 < p then .error ("invalid port: " ++ port)
      else .ok ⟨host, p⟩

/-- `NewClient` of `client.go` lines 30-50: defaults host `hector.cern.ch`
and port 8008; a non-nil, non-empty host overrides the host; a non-nil,
non-empty port is parsed and validated exactly as in `part_002`, while a nil
or empty port keeps the default. -/
def NewClient_cgo (host port : Option String) : Except String Client :=
  let c0 : Client := ⟨"hector.cern.ch", 8008⟩
  let c1 : Client :=
    match host with
    | some hv => if hv ≠ "" then { c0 with host := hv } else c0
    | none => c0
  match port with
  | some pv =>
      if pv ≠ "" then
        match atoi pv with
        | none => .error ("invalid port: " ++ pv)
        | some p =>
            if p ≤ 0 ∨ 65535 < p then .error ("invalid port: " ++ pv)
            else .ok { c1 with port := p }
      else .ok c1
  | none => .ok c1

/-- One address from `net.LookupIP`: its textual form and whether
`ip.To4() != nil`. -/
structure IPAddr where
  addr : String
  ipv4 : Bool
  deriving Repr, DecidableEq

/-- The DNS environment the resolvers run in: `net.LookupIP`,
`net.LookupAddr` and `net.LookupCNAME` as explicit functions. -/
structure DNSEnv where
  lookupIP : String → Except String (List IPAddr)
  lookupAddr : String → Except String (List String)
  lookupCNAME : String → Except String String

/-- Go `strings.TrimSuffix(s, ".")`: drop one trailing dot if present. -/
def trimDot (s : String) : String :=
  if s.data.getLast? = some '.' then String.mk s.data.dropLast else s

/-- Go `strings.HasPrefix`. -/
def hasPrefixStr (s pre : String) : Bool :=
  pre.data.isPrefixOf s.data

/-- `resolveFQDN` of `part_001` lines 53-81: forward lookup, then for the
first IPv4 address a reverse lookup whose failure, empty answer or first
PTR name (dot-trimmed) not starting with `baby` each end the resolution;
only non-IPv4 addresses are skipped.  (The Go message quotes the PTR with
`%q` and writes `'baby'`; quoting is omitted here.) -/
def resolveLoop_p1 (env : DNSEnv) (host : String) : List IPAddr → Except String String
  | [] => .error ("no IPv4 address found for host " ++ host)
  | ip :: rest =>
      if ip.ipv4 = false then resolveLoop_p1 env host rest
      else
        match env.lookupAddr ip.addr with
        | .error e => .error ("reverse lookup failed for IP " ++ ip.addr ++ ": " ++ e)
        | .ok [] => .error ("no PTR record found for IP " ++ ip.addr)
        | .ok (p :: _) =>
            let ptr := trimDot p
            if hasPrefixStr ptr "baby" then .ok ptr
            else .error ("PTR record " ++ ptr ++ " does not start with baby")

/-- See the doc comment above `resolveLoop_p1`: entry point of the
`part_001` resolver. -/
def resolveFQDN_p1 (env : DNSEnv) (host : String) : Except String String :=
  match env.lookupIP host with
  | .error e => .error ("failed to resolve IP for hostname " ++ host ++ ": " ++ e)
  | .ok ips => resolveLoop_p1 env host ips

/-- `resolveFQDN` of `part_002` lines 39-58: forward lookup, then the first
IPv4 address whose reverse lookup returns a non-empty answer wins (an empty
answer moves on to the next address, a failing reverse lookup ends the
resolution); no prefix constraint. -/
def resolveLoop_p2 (env : DNSEnv) (host : String) : List IPAddr → Except String String
  | [] => .error ("no valid IPv4 PTR record found for host " ++ host)
  | ip :: rest =>
      if ip.ipv4 = false then resolveLoop_p2 env host rest
      else
        match env.lookupAddr ip.addr with
        | .error e => .error ("reverse lookup failed for IP " ++ ip.addr ++ ": " ++ e)
        | .ok [] => resolveLoop_p2 env host rest
        | .ok (p :: _) => .ok (trimDot p)

/-- See the doc comment above `resolveLoop_p2`: entry point of the
`part_002` resolver. -/
def resolveFQDN_p2 (env : DNSEnv) (host : String) : Except String String :=
  match env.lookupIP host with
  | .error e => .error ("failed to resolve IP for hostname " ++ host ++ ": " ++ e)
  | .ok ips => resolveLoop_p2 env host ips

/-- `resolveFQDN` of `client.go` lines 52-58: a single `net.LookupCNAME`
whose result is returned unchanged; no reverse lookup is performed. -/
def resolveFQDN_cgo (env : DNSEnv) (host : String) : Except String String :=
  match env.lookupCNAME host with
  | .error e => .error ("failed to resolve FQDN for host " ++ host ++ ": " ++ e)
  | .ok cname => .ok cname

/-- The first address of the answer with `ip.To4() != nil` (specification
side, used to state which address the resolver reverse-looks-up). -/
def firstIPv4 : List IPAddr → Option IPAddr
  | [] => none
  | ip :: rest => if ip.ipv4 then some ip else firstIPv4 rest

/-- `UpdateCertificate` of `part_000` lines 65-77 (and `part_002` lines
150-172) posts the full record to `/krb/certmgr/certificate/`; the backing
service applies it by replacing the stored record carrying the same id
(server model, following the spec of the update endpoint). -/
def UpdateCertificate_post (server : List Certificate) (cert : Certificate) :
    List Certificate :=
  server.map (fun c => if c.id == cert.id then cert else c)

/-- `UpdateCertificate` of `client.go` lines 127-133: it only calls
`GetCertificate(hostname)` and returns that result; no request that writes
is issued, so the staged store is unchanged and the record passed in is
never sent. -/
def UpdateCertificate_cgo (server : List Certificate) (_hostname : String)
    (_cert : Certificate) : List Certificate :=
  server

/-- Effect of a successful `POST /krb/certmgr/staged/` carrying a hostname:
the service records a fresh staged entry with that hostname, assigns it an
id, and returns it; subsequent listings for that hostname include it (server
model, stated by the claim and the spec round-trip property). -/
def createStaged (server : List Certificate) (hostname : String) (newId : Int) :
    List Certificate × Certificate :=
  let cert : Certificate := ⟨newId, hostname, "", "", ""⟩
  (server ++ [cert], cert)

/-- terraform-plugin-framework `types.String.String()` on a known value:
`fmt.Sprintf` with `%q`, i.e. the value wrapped in double quotes (modelled
for values containing no character that `%q` escapes).  `ValueString()` by
contrast returns the raw value. -/
def typesStringRender (s : String) : String :=
  "\"" ++ s ++ "\""

/-- The terraform state record of the string-id resource variant:
`certificateResourceModel` with ID, Hostname, LastUpdated as known string
values. -/
structure certificateResourceModel where
  id : String
  hostname : String
  lastUpdated : String
  deriving Repr, DecidableEq

/-- One diagnostic added via `resp.Diagnostics.AddError`. -/
structure Diag where
  summary : String
  detail : String
  deriving Repr, DecidableEq

/-- What a controller operation leaves behind: the diagnostics added and the
stored state (`none` models `resp.State.RemoveResource`; an untouched
response keeps the request state). -/
structure ControllerOutcome where
  diags : List Diag
  state : Option certificateResourceModel
  deriving Repr, DecidableEq

/-- `certificateResource.Read` of the string-id variant
(`certificate_resource.go` lines 97-129), run on the result of
`GetCertificate` for the stored hostname (`getResult` carries the rendered
Go error string on failure): an error containing "no certificates found"
removes the resource and adds nothing; any other error adds one diagnostic
and leaves the state as it was; on success the id is stored via
`strconv.Itoa`, one diagnostic echoing that id is added unconditionally,
the timestamp is refreshed and the state is saved. -/
def certificateResourceRead (state : certificateResourceModel)
    (getResult : Except String Certificate) (now : String) : ControllerOutcome :=
  match getResult with
  | .error e =>
      if strContains e "no certificates found" then ⟨[], none⟩
      else
        ⟨[⟨"Error Reading certMgr certificate",
           "Could not read certMgr certificate for hostname " ++ state.hostname
             ++ ": " ++ e⟩],
         some state⟩
  | .ok cert =>
      let state1 := { state with id := toString cert.id }
      let diag : Diag :=
        ⟨"this is the state id Reading certMgr certificate " ++ state1.id,
         "testing the id " ++ state1.id⟩
      let state2 := { state1 with lastUpdated := now }
      ⟨[diag], some state2⟩

/-- The terraform state record of the int64-id resource variant:
`certificateResourceModel` with ID as a known Int64 value. -/
structure certificateResourceModelI64 where
  id : Int
  hostname : String
  lastUpdated : String
  deriving Repr, DecidableEq

/-- What an int64-variant controller operation leaves behind: diagnostics
added and the stored state. -/
structure ControllerOutcomeI64 where
  diags : List Diag
  state : Option certificateResourceModelI64
  deriving Repr, DecidableEq

/-- `certificateResource.Read` of the int64-id variant
(`certificate_resource.go` lines 311-334): any `GetCertificate` error — the
NotFound error included, there is no "no certificates found" check and no
`RemoveResource` call — adds one error diagnostic and returns with the
stored state untouched; on success the fetched id and a fresh timestamp are
stored and no diagnostic is added. -/
def certificateResourceReadI64 (state : certificateResourceModelI64)
    (getResult : Except String Certificate) (now : String) : ControllerOutcomeI64 :=
  match getResult with
  | .error e =>
      ⟨[⟨"Error Reading certificate",
         "Could not read certificate for hostname " ++ state.hostname ++ ": " ++ e⟩],
       some state⟩
  | .ok cert =>
      ⟨[], some ⟨cert.id, state.hostname, now⟩⟩

/-- `certificateResource.Create` of the string-id variant
(`certificate_resource.go` lines 70-95): the hostname sent to
`CreateCertificate` is `plan.Hostname.String()`, i.e. the `%q`-quoted
rendering, after which the returned id (via `strconv.Itoa`) and a fresh
timestamp are stored.  The staged store after the create and the stored plan
are returned. -/
def certificateResourceCreate (plan : certificateResourceModel)
    (server : List Certificate) (newId : Int) (now : String) :
    List Certificate × certificateResourceModel :=
  let sent := typesStringRender plan.hostname
  let r := createStaged server sent newId
  (r.1, { plan with id := toString r.2.id, lastUpdated := now })

/-! ### Helper lemmas -/

theorem GetCertificate_transportErr (h m : String) :
    GetCertificate h (.transportErr m) = .error (.transport m) := rfl

theorem GetCertificate_malformed (h r : String) :
    GetCertificate h (.malformed r) =
      .error (.decode ("failed unmarshaling staged certs: " ++ r)) := rfl

theorem GetCertificate_staged (h : String) (meta : List (String × String))
    (objs : List Certificate) :
    GetCertificate h (.staged meta objs) =
      if hne : objs = [] then .error (.notFound h) else .ok (objs.getLast hne) := rfl

theorem getCertificate_ok_of_getLast (h : String) (meta : List (String × String))
    (objs : List Certificate) (c : Certificate) (hl : objs.getLast? = some c) :
    GetCertificate h (.staged meta objs) = .ok c := by
  rw [GetCertificate_staged]
  split
  · next hne => subst hne; simp at hl
  · next hne =>
      rw [List.getLast?_eq_getLast objs hne] at hl
      simp only [Option.some.injEq] at hl
      rw [hl]

theorem isPrefixOf_append_self (l r : List Char) : l.isPrefixOf (l ++ r) = true := by
  induction l with
  | nil => simp
  | cons c t ih => simp [List.isPrefixOf_cons₂, ih]

theorem containsSub_of_isPrefixOf (pat l : List Char)
    (h : pat.isPrefixOf l = true) : containsSub pat l = true := by
  cases l with
  | nil => exact h
  | cons c t =>
      show (pat.isPrefixOf (c :: t) || containsSub pat t) = true
      rw [h, Bool.true_or]

theorem strContains_append_self (s t : String) : strContains (s ++ t) s = true := by
  unfold strContains
  rw [String.data_append]
  exact containsSub_of_isPrefixOf _ _ (isPrefixOf_append_self s.data t.data)

theorem certificateResourceRead_error (state : certificateResourceModel)
    (e now : String) :
    certificateResourceRead state (.error e) now =
      if strContains e "no certificates found" then ⟨[], none⟩
      else
        ⟨[⟨"Error Reading certMgr certificate",
           "Could not read certMgr certificate for hostname " ++ state.hostname
             ++ ": " ++ e⟩],
         some state⟩ := rfl

/-- `Except` success test (`err == nil` on the Go side). -/
def exceptOk {ε α : Type _} : Except ε α → Bool
  | .ok _ => true
  | .error _ => false

/-! ### Claims -/

/-- C1: whenever the staged listing for a hostname decodes to a sequence of
certificate objects, `GetCertificate` succeeds with a certificate exactly
when that certificate is the last element of the sequence, so on a non-empty
listing it returns the last entry, not the first or any other. -/
theorem getCertificate_returns_last (h : String) (meta : List (String × String))
    (objs : List Certificate) (c : Certificate) :
    GetCertificate h (.staged meta objs) = .ok c ↔ objs.getLast? = some c := by
  rw [GetCertificate_staged]
  split
  · next hne => subst hne; simp
  · next hne =>
      rw [List.getLast?_eq_getLast objs hne]
      simp

/-- C5: `GetCertificate` returns the NotFound error exactly when the staged
listing decodes to an empty sequence of certificate objects; a transport
failure, a decode failure or a non-empty listing never yields NotFound. -/
theorem getCertificate_notFound_iff_empty (h : String) (resp : FetchResult) :
    GetCertificate h resp = .error (.notFound h) ↔
      ∃ meta, resp = .staged meta [] := by
  cases resp with
  | transportErr m => rw [GetCertificate_transportErr]; simp
  | malformed r => rw [GetCertificate_malformed]; simp
  | staged meta objs =>
      rw [GetCertificate_staged]
      split
      · next hne => subst hne; simp
      · next hne => simp [hne]

/-- C9: the id-based `DeleteCertificate` returns success whenever the curl
subprocess exits with status 0, for every combined output, in particular
whatever HTTP status code `-w` appended to the body: the output is never
inspected. -/
theorem deleteCertificate_id_ignores_http_code (fqdn body code : String) :
    DeleteCertificate_cgo (.ok fqdn) ⟨true, body ++ code⟩ = none := rfl

/-- C10: in the string-id controller variant, a Read whose certificate fetch
succeeds always stores the refreshed state, and unconditionally adds one
error diagnostic echoing the fetched certificate id, so no successful Read
completes without an error diagnostic. -/
theorem read_success_always_adds_diag (state : certificateResourceModel)
    (cert : Certificate) (now : String) :
    certificateResourceRead state (.ok cert) now =
      ⟨[⟨"this is the state id Reading certMgr certificate " ++ toString cert.id,
         "testing the id " ++ toString cert.id⟩],
       some ⟨toString cert.id, state.hostname, now⟩⟩ := rfl

/-- C3 (amended): in the string-id controller variant, a Read whose
certificate fetch returns the NotFound error ("no certificates found ...")
removes the resource from tracked state and adds no diagnostic, while a
fetch failing with any other error (one not carrying the NotFound marker the
code greps for) adds exactly the error diagnostic quoting that error and
leaves the stored state unchanged; the int64-id Read variant instead
surfaces every fetch error — the NotFound error included — as a diagnostic
and never removes the resource from state. -/
theorem read_error_handling_variants (s : certificateResourceModel)
    (t : certificateResourceModelI64) (now h e e2 : String)
    (hother : strContains e "no certificates found" = false) :
    certificateResourceRead s
        (.error ("no certificates found for hostname " ++ h)) now = ⟨[], none⟩ ∧
    certificateResourceRead s (.error e) now =
      ⟨[⟨"Error Reading certMgr certificate",
         "Could not read certMgr certificate for hostname " ++ s.hostname
           ++ ": " ++ e⟩],
       some s⟩ ∧
    certificateResourceReadI64 t (.error e2) now =
      ⟨[⟨"Error Reading certificate",
         "Could not read certificate for hostname " ++ t.hostname ++ ": " ++ e2⟩],
       some t⟩ := by
  have h2 : ("no certificates found for hostname " : String) =
      "no certificates found" ++ " for hostname " := by decide
  have key : strContains ("no certificates found for hostname " ++ h)
      "no certificates found" = true := by
    rw [h2, String.append_assoc]
    exact strContains_append_self _ _
  refine ⟨?_, ?_, rfl⟩
  · rw [certificateResourceRead_error, if_pos key]
  · rw [certificateResourceRead_error, if_neg (by rw [hother]; simp)]

/-- Witness for `read_error_handling_variants` at concrete states, the
concrete NotFound error and a concrete non-NotFound error. -/
theorem read_error_handling_variants_witness :
    certificateResourceRead ⟨"7", "myhost.cern.ch", "t0"⟩
        (.error ("no certificates found for hostname " ++ "myhost.cern.ch")) "t1" =
      ⟨[], none⟩ ∧
    certificateResourceRead ⟨"7", "myhost.cern.ch", "t0"⟩
        (.error "curl failed: connection refused") "t1" =
      ⟨[⟨"Error Reading certMgr certificate",
         "Could not read certMgr certificate for hostname " ++ "myhost.cern.ch"
           ++ ": " ++ "curl failed: connection refused"⟩],
       some ⟨"7", "myhost.cern.ch", "t0"⟩⟩ ∧
    certificateResourceReadI64 ⟨7, "myhost.cern.ch", "t0"⟩
        (.error "curl failed: connection refused") "t1" =
      ⟨[⟨"Error Reading certificate",
         "Could not read certificate for hostname " ++ "myhost.cern.ch" ++ ": "
           ++ "curl failed: connection refused"⟩],
       some ⟨7, "myhost.cern.ch", "t0"⟩⟩ :=
  read_error_handling_variants ⟨"7", "myhost.cern.ch", "t0"⟩
    ⟨7, "myhost.cern.ch", "t0"⟩ "t1" "myhost.cern.ch"
    "curl failed: connection refused" "curl failed: connection refused" (by decide)

/-- Counterexample to C3 as stated: the int64-id Read variant (the other
Read the claim cites) hits the NotFound error and, contrary to the claim,
keeps the resource in tracked state and reports an error diagnostic. -/
theorem read_notFound_escalates_i64 :
    (certificateResourceReadI64 ⟨7, "myhost.cern.ch", "t0"⟩
        (.error ("no certificates found for hostname " ++ "myhost.cern.ch"))
        "t1").state = some ⟨7, "myhost.cern.ch", "t0"⟩ ∧
    (certificateResourceReadI64 ⟨7, "myhost.cern.ch", "t0"⟩
        (.error ("no certificates found for hostname " ++ "myhost.cern.ch"))
        "t1").diags ≠ [] := ⟨rfl, by decide⟩

/-- C4 (amended): the string-based `NewClient` of `part_002` succeeds
exactly when the supplied port parses under `strconv.Atoi` to an integer `p`
with `0 < p ≤ 65535`; the pointer-based `NewClient` of `client.go` applies
the same rule to a non-empty port input but silently falls back to the
default port 8008 when the port is nil or the empty string. -/
theorem newClient_port_validation (host ps : String) (hostO : Option String) :
    (exceptOk (NewClient_p2 host ps) = true ↔
      ∃ p, atoi ps = some p ∧ 0 < p ∧ p ≤ 65535) ∧
    exceptOk (NewClient_cgo hostO none) = true ∧
    (exceptOk (NewClient_cgo hostO (some ps)) = true ↔
      ps = "" ∨ ∃ p, atoi ps = some p ∧ 0 < p ∧ p ≤ 65535) := by
  refine ⟨?_, rfl, ?_⟩
  · cases hat : atoi ps with
    | none => simp [NewClient_p2, hat, exceptOk]
    | some p =>
        by_cases hp : p ≤ 0 ∨ 65535 < p
        · simp only [NewClient_p2, hat, hp, if_true, exceptOk]
          constructor
          · intro hf; cases hf
          · rintro ⟨q, hq, hq1, hq2⟩
            injection hq with hq
            rcases hp with hp | hp <;> omega
        · simp only [NewClient_p2, hat, hp, if_false, exceptOk]
          push_neg at hp
          exact ⟨fun _ => ⟨p, rfl, by omega, by omega⟩, fun _ => trivial⟩
  · by_cases hps : ps = ""
    · subst hps
      simp only [NewClient_cgo]
      rw [if_neg (by simp)]
      simp [exceptOk]
    · simp only [NewClient_cgo]
      rw [if_pos hps]
      cases hat : atoi ps with
      | none => simp [hat, exceptOk, hps]
      | some p =>
          by_cases hp : p ≤ 0 ∨ 65535 < p
          · simp only [hat, hp, if_true, exceptOk]
            constructor
            · intro hf; cases hf
            · rintro (hemp | ⟨q, hq, hq1, hq2⟩)
              · exact absurd hemp hps
              · injection hq with hq
                rcases hp with hp | hp <;> omega
          · simp only [hat, hp, if_false, exceptOk]
            push_neg at hp
            exact ⟨fun _ => Or.inr ⟨p, rfl, by omega, by omega⟩, fun _ => trivial⟩

/-- Counterexample to C4 as stated: the pointer-based `NewClient` accepts a
supplied empty-string port, which `strconv.Atoi` does not parse as an
integer, and succeeds with the default port 8008 instead of failing. -/
theorem newClient_blank_port_succeeds :
    NewClient_cgo (some "certmgr.cern.ch") (some "") =
      .ok ⟨"certmgr.cern.ch", 8008⟩ ∧
    atoi "" = none := ⟨rfl, rfl⟩

/-- C6: the string-id controller Create sends `plan.Hostname.String()`, the
`%q`-quoted rendering, to `CreateCertificate`, so the staged entry it
records carries literal double quotes around the hostname, and a subsequent
Get by the plain hostname finds nothing and returns NotFound; calling the
client-level `CreateCertificate` with the raw hostname (as the repository
test and the int64 variant do) makes the same round trip return a record
whose hostname equals the input, which pins the `.String()` call as the
slip. -/
theorem create_read_roundtrip_quoted_hostname :
    (certificateResourceCreate ⟨"", "myhost.cern.ch", ""⟩ [] 42 "t0").1 =
      [⟨42, "\"myhost.cern.ch\"", "", "", ""⟩] ∧
    GetCertificate "myhost.cern.ch"
      (.staged []
        (listStaged (certificateResourceCreate ⟨"", "myhost.cern.ch", ""⟩ [] 42 "t0").1
          "myhost.cern.ch")) = .error (.notFound "myhost.cern.ch") ∧
    GetCertificate "myhost.cern.ch"
      (.staged []
        (listStaged (createStaged [] "myhost.cern.ch" 42).1 "myhost.cern.ch")) =
      .ok ⟨42, "myhost.cern.ch", "", "", ""⟩ := ⟨rfl, rfl, rfl⟩

/-! ### Deletion-loop lemmas for C2 -/

theorem deleteLoop_attempted_prefix (fails : Int → Bool) (ids : List Int) :
    ∀ server : List Certificate,
      ∃ t, (deleteLoop fails server ids).attempted ++ t = ids := by
  induction ids with
  | nil => intro server; exact ⟨[], rfl⟩
  | cons i rest ih =>
      intro server
      cases hf : fails i with
      | true => exact ⟨rest, by simp [deleteLoop, hf]⟩
      | false =>
          obtain ⟨t, ht⟩ := ih (deleteById server i)
          exact ⟨t, by simp [deleteLoop, hf, ht]⟩

theorem deleteLoop_success (fails : Int → Bool) (ids : List Int) :
    ∀ server : List Certificate,
      (∀ i ∈ ids, fails i = false) →
      deleteLoop fails server ids = ⟨ids.foldl deleteById server, ids, none⟩ := by
  induction ids with
  | nil => intro server _; rfl
  | cons i rest ih =>
      intro server hall
      have hi : fails i = false := hall i (by simp)
      have hrest : ∀ j ∈ rest, fails j = false := fun j hj => hall j (by simp [hj])
      simp [deleteLoop, hi, ih (deleteById server i) hrest]

theorem deleteLoop_first_failure (fails : Int → Bool) (i : Int)
    (hi : fails i = true) (pre : List Int) :
    ∀ (post : List Int) (server : List Certificate),
      (∀ j ∈ pre, fails j = false) →
      deleteLoop fails server (pre ++ i :: post) =
        ⟨pre.foldl deleteById server, pre ++ [i],
         some ("delete failed for event " ++ toString i)⟩ := by
  induction pre with
  | nil => intro post server _; simp [deleteLoop, hi]
  | cons j rest ih =>
      intro post server hpre
      have hj : fails j = false := hpre j (by simp)
      have hrest : ∀ k ∈ rest, fails k = false := fun k hk => hpre k (by simp [hk])
      simp [deleteLoop, hj, ih post (deleteById server j) hrest]

theorem foldl_deleteById_eq_filter (ids : List Int) :
    ∀ server : List Certificate,
      ids.foldl deleteById server =
        server.filter (fun c => ids.all (fun i => !(c.id == i))) := by
  induction ids with
  | nil => intro server; simp
  | cons i rest ih =>
      intro server
      rw [List.foldl_cons, ih (deleteById server i)]
      unfold deleteById
      rw [List.filter_filter]
      refine List.filter_congr ?_
      intro c _
      simp [List.all_cons, Bool.and_comm]

theorem listStaged_after_drain (server : List Certificate) (h : String) :
    listStaged
      (((listStaged server h).map (fun c => c.id)).foldl deleteById server) h = [] := by
  rw [foldl_deleteById_eq_filter]
  unfold listStaged
  rw [List.filter_filter, List.filter_eq_nil_iff]
  intro c hc
  simp only [Bool.and_eq_true, List.all_eq_true, not_and]
  intro hh
  intro hall
  have hmem : c.id ∈ (List.filter (fun c => c.hostname == h) server).map
      (fun c => c.id) :=
    List.mem_map.mpr ⟨c, List.mem_filter.mpr ⟨hc, hh⟩, rfl⟩
  have := hall c.id hmem
  simp at this

/-- C2: hostname-based DeleteCertificate issues DELETE requests exactly for
a prefix of the listed ids in sequence order; when every DELETE succeeds it
attempts each listed id once, returns no error, and a subsequent Get for
that hostname returns NotFound; when some DELETE fails it stops at the
first failing id, surfaces that error, and the deletions already performed
are kept while the remaining listed ids are never attempted. -/
theorem deleteCertificate_hostname_drains (server : List Certificate) (h : String)
    (fails : Int → Bool) :
    (∃ t, (DeleteCertificate_byHostname server h fails).attempted ++ t =
        (listStaged server h).map (fun c => c.id)) ∧
    ((∀ i ∈ (listStaged server h).map (fun c => c.id), fails i = false) →
      (DeleteCertificate_byHostname server h fails).error = none ∧
      (DeleteCertificate_byHostname server h fails).attempted =
        (listStaged server h).map (fun c => c.id) ∧
      GetCertificate h
        (.staged []
          (listStaged (DeleteCertificate_byHostname server h fails).server h)) =
        .error (.notFound h)) ∧
    (∀ pre i post,
      (listStaged server h).map (fun c => c.id) = pre ++ i :: post →
      (∀ j ∈ pre, fails j = false) → fails i = true →
      (DeleteCertificate_byHostname server h fails).error =
        some ("delete failed for event " ++ toString i) ∧
      (DeleteCertificate_byHostname server h fails).attempted = pre ++ [i] ∧
      (DeleteCertificate_byHostname server h fails).server =
        pre.foldl deleteById server) := by
  refine ⟨?_, ?_, ?_⟩
  · exact deleteLoop_attempted_prefix fails _ server
  · intro hall
    unfold DeleteCertificate_byHostname
    rw [deleteLoop_success fails _ server hall]
    refine ⟨rfl, rfl, ?_⟩
    rw [GetCertificate_staged]
    split
    · rfl
    · next hne => exact absurd (listStaged_after_drain server h) hne
  · intro pre i post hsplit hpre hi
    unfold DeleteCertificate_byHostname
    rw [hsplit, deleteLoop_first_failure fails i hi pre post server hpre]
    exact ⟨rfl, rfl, rfl⟩

/-- Witness for `deleteCertificate_hostname_drains`: a concrete staged store
with two entries for the hostname and one for another, with every DELETE
succeeding, is drained and the follow-up Get returns NotFound. -/
theorem deleteCertificate_hostname_drains_witness :
    (DeleteCertificate_byHostname
        [⟨1, "h", "", "", ""⟩, ⟨2, "h", "", "", ""⟩, ⟨3, "x", "", "", ""⟩] "h"
        (fun _ => false)).error = none ∧
    GetCertificate "h"
      (.staged []
        (listStaged
          (DeleteCertificate_byHostname
            [⟨1, "h", "", "", ""⟩, ⟨2, "h", "", "", ""⟩, ⟨3, "x", "", "", ""⟩] "h"
            (fun _ => false)).server "h")) = .error (.notFound "h") := by
  obtain ⟨-, hsucc, -⟩ :=
    deleteCertificate_hostname_drains
      [⟨1, "h", "", "", ""⟩, ⟨2, "h", "", "", ""⟩, ⟨3, "x", "", "", ""⟩] "h"
      (fun _ => false)
  obtain ⟨h1, -, h3⟩ := hsucc (fun i _ => rfl)
  exact ⟨h1, h3⟩

/-! ### Update lemmas for C7 -/

theorem listStaged_update (c c1 : Certificate) (server : List Certificate)
    (hid : c1.id = c.id) (hhost : c1.hostname = c.hostname)
    (huniq : ∀ d ∈ server, d.id = c.id → d = c) :
    listStaged (UpdateCertificate_post server c1) c.hostname =
      (listStaged server c.hostname).map (fun d => if d.id == c.id then c1 else d) := by
  unfold UpdateCertificate_post listStaged
  simp only [hid]
  rw [List.filter_map]
  congr 1
  refine List.filter_congr ?_
  intro x hx
  by_cases hxc : x.id = c.id
  · have hx1 : x = c := huniq x hx hxc
    subst hx1
    simp [hhost]
  · simp [hxc]

/-- C7 (amended): with the full-record POST variant of `UpdateCertificate`
(`part_000`/`part_002`), updating an existing certificate (the one a Get by
its hostname currently returns, in a store with unique ids) so that only the
requestor changes leaves the hostname unchanged, and the next Get for that
hostname returns the record with the new requestor. -/
theorem update_requestor_reflected (server : List Certificate) (c : Certificate)
    (r : String) (hnd : (server.map (fun d => d.id)).Nodup)
    (hlast : (listStaged server c.hostname).getLast? = some c) :
    ({ c with requestor := r } : Certificate).hostname = c.hostname ∧
    GetCertificate c.hostname
      (.staged []
        (listStaged (UpdateCertificate_post server { c with requestor := r })
          c.hostname)) = .ok { c with requestor := r } := by
  have hstagedmem : c ∈ listStaged server c.hostname :=
    List.mem_of_mem_getLast? hlast
  have hcmem : c ∈ server := (List.mem_filter.mp hstagedmem).1
  have huniq : ∀ d ∈ server, d.id = c.id → d = c :=
    fun d hd hdc => List.inj_on_of_nodup_map hnd hd hcmem hdc
  refine ⟨rfl, ?_⟩
  rw [listStaged_update c { c with requestor := r } server rfl rfl huniq]
  apply getCertificate_ok_of_getLast
  rw [List.getLast?_map, hlast]
  simp

/-- Witness for `update_requestor_reflected`: one staged entry for hostname
`h` with requestor `old`; posting the record with requestor `new` makes the
next Get return the `new` requestor. -/
theorem update_requestor_reflected_witness :
    GetCertificate "h"
      (.staged []
        (listStaged
          (UpdateCertificate_post [⟨1, "h", "old", "", ""⟩] ⟨1, "h", "new", "", ""⟩)
          "h")) = .ok ⟨1, "h", "new", "", ""⟩ := by
  have hmain :=
    update_requestor_reflected [⟨1, "h", "old", "", ""⟩] ⟨1, "h", "old", "", ""⟩
      "new" (by decide) (by decide)
  exact hmain.2

/-- Counterexample to C7 as stated: the `client.go` variant of
`UpdateCertificate` only re-reads the certificate and never writes, so after
an update that changes only the requestor the staged store is unchanged and
the next Get still returns the old requestor. -/
theorem update_noop_leaves_requestor :
    UpdateCertificate_cgo [⟨1, "h", "old", "", ""⟩] "h" ⟨1, "h", "new", "", ""⟩ =
      [⟨1, "h", "old", "", ""⟩] ∧
    GetCertificate "h"
      (.staged []
        (listStaged
          (UpdateCertificate_cgo [⟨1, "h", "old", "", ""⟩] "h" ⟨1, "h", "new", "", ""⟩)
          "h")) = .ok ⟨1, "h", "old", "", ""⟩ ∧
    ("old" : String) ≠ "new" := ⟨rfl, rfl, by decide⟩

/-! ### Resolver lemmas for C8 -/

theorem resolveLoop_p1_eq (env : DNSEnv) (host : String) :
    ∀ ips : List IPAddr,
      resolveLoop_p1 env host ips =
        match firstIPv4 ips with
        | none => .error ("no IPv4 address found for host " ++ host)
        | some ip =>
            match env.lookupAddr ip.addr with
            | .error e =>
                .error ("reverse lookup failed for IP " ++ ip.addr ++ ": " ++ e)
            | .ok [] => .error ("no PTR record found for IP " ++ ip.addr)
            | .ok (p :: _) =>
                if hasPrefixStr (trimDot p) "baby" then .ok (trimDot p)
                else .error ("PTR record " ++ trimDot p ++ " does not start with baby") := by
  intro ips
  induction ips with
  | nil => rfl
  | cons ip rest ih =>
      cases hip : ip.ipv4 with
      | false => simp [resolveLoop_p1, firstIPv4, hip, ih]
      | true => simp [resolveLoop_p1, firstIPv4, hip]

theorem resolveLoop_p2_no_ipv4 (env : DNSEnv) (host : String) :
    ∀ ips : List IPAddr, (∀ ip ∈ ips, ip.ipv4 = false) →
      resolveLoop_p2 env host ips =
        .error ("no valid IPv4 PTR record found for host " ++ host) := by
  intro ips
  induction ips with
  | nil => intro _; rfl
  | cons ip rest ih =>
      intro hall
      have hip : ip.ipv4 = false := hall ip (by simp)
      simp [resolveLoop_p2, hip, ih (fun q hq => hall q (by simp [hq]))]

theorem resolveLoop_p2_ok (env : DNSEnv) (host : String) :
    ∀ (ips : List IPAddr) (fqdn : String),
      resolveLoop_p2 env host ips = .ok fqdn →
      ∃ ip p ps, ip ∈ ips ∧ ip.ipv4 = true ∧
        env.lookupAddr ip.addr = .ok (p :: ps) ∧ fqdn = trimDot p := by
  intro ips
  induction ips with
  | nil => intro fqdn hok; exact absurd hok (by simp [resolveLoop_p2])
  | cons ip rest ih =>
      intro fqdn hok
      cases hip : ip.ipv4 with
      | false =>
          simp only [resolveLoop_p2, hip, if_true] at hok
          obtain ⟨q, p, ps, hmem, hq4, haddr, hf⟩ := ih fqdn hok
          exact ⟨q, p, ps, by simp [hmem], hq4, haddr, hf⟩
      | true =>
          simp only [resolveLoop_p2, hip, Bool.true_eq_false, if_false] at hok
          cases haddr : env.lookupAddr ip.addr with
          | error e => rw [haddr] at hok; simp at hok
          | ok ptrs =>
              rw [haddr] at hok
              cases ptrs with
              | nil =>
                  simp only [] at hok
                  obtain ⟨q, p, ps, hmem, hq4, haddr2, hf⟩ := ih fqdn hok
                  exact ⟨q, p, ps, by simp [hmem], hq4, haddr2, hf⟩
              | cons p ps =>
                  simp only [Except.ok.injEq] at hok
                  exact ⟨ip, p, ps, by simp, hip, haddr, by simp [hok]⟩

/-- C8 (amended): the `part_001` resolver does a forward lookup and then a
reverse (PTR) lookup of the first IPv4 address, requiring the dot-trimmed
PTR name to start with the expected prefix `baby`, and fails when the
forward lookup fails, when no IPv4 address resolves, or when the first IPv4
address's reverse lookup fails or is empty; the `part_002` resolver fails
when no IPv4 address resolves, and whenever it succeeds the returned name is
the dot-trimmed first PTR record of one of the host's IPv4 addresses. -/
theorem resolveFQDN_forward_then_reverse (env : DNSEnv) (host : String) :
    (∀ e, env.lookupIP host = .error e →
      resolveFQDN_p1 env host =
        .error ("failed to resolve IP for hostname " ++ host ++ ": " ++ e)) ∧
    (∀ ips, env.lookupIP host = .ok ips → firstIPv4 ips = none →
      resolveFQDN_p1 env host = .error ("no IPv4 address found for host " ++ host)) ∧
    (∀ ips ip, env.lookupIP host = .ok ips → firstIPv4 ips = some ip →
      (∀ e, env.lookupAddr ip.addr = .error e →
        resolveFQDN_p1 env host =
          .error ("reverse lookup failed for IP " ++ ip.addr ++ ": " ++ e)) ∧
      (env.lookupAddr ip.addr = .ok [] →
        resolveFQDN_p1 env host = .error ("no PTR record found for IP " ++ ip.addr)) ∧
      (∀ p ps, env.lookupAddr ip.addr = .ok (p :: ps) →
        resolveFQDN_p1 env host =
          if hasPrefixStr (trimDot p) "baby" then .ok (trimDot p)
          else .error ("PTR record " ++ trimDot p ++ " does not start with baby"))) ∧
    (∀ ips, env.lookupIP host = .ok ips → (∀ ip ∈ ips, ip.ipv4 = false) →
      resolveFQDN_p2 env host =
        .error ("no valid IPv4 PTR record found for host " ++ host)) ∧
    (∀ fqdn, resolveFQDN_p2 env host = .ok fqdn →
      ∃ ips ip p ps, env.lookupIP host = .ok ips ∧ ip ∈ ips ∧ ip.ipv4 = true ∧
        env.lookupAddr ip.addr = .ok (p :: ps) ∧ fqdn = trimDot p) := by
  refine ⟨?_, ?_, ?_, ?_, ?_⟩
  · intro e he
    simp [resolveFQDN_p1, he]
  · intro ips hips hfirst
    simp [resolveFQDN_p1, hips, resolveLoop_p1_eq env host ips, hfirst]
  · intro ips ip hips hfirst
    refine ⟨?_, ?_, ?_⟩
    · intro e haddr
      simp [resolveFQDN_p1, hips, resolveLoop_p1_eq env host ips, hfirst, haddr]
    · intro haddr
      simp [resolveFQDN_p1, hips, resolveLoop_p1_eq env host ips, hfirst, haddr]
    · intro p ps haddr
      simp [resolveFQDN_p1, hips, resolveLoop_p1_eq env host ips, hfirst, haddr]
  · intro ips hips hall
    simp [resolveFQDN_p2, hips, resolveLoop_p2_no_ipv4 env host ips hall]
  · intro fqdn hok
    unfold resolveFQDN_p2 at hok
    cases hips : env.lookupIP host with
    | error e => simp [hips] at hok
    | ok ips =>
        rw [hips] at hok
        obtain ⟨ip, p, ps, hmem, hip4, haddr, hf⟩ := resolveLoop_p2_ok env host ips fqdn hok
        exact ⟨ips, ip, p, ps, rfl, hmem, hip4, haddr, hf⟩

/-- A concrete DNS environment: the host forward-resolves to one IPv4
address whose PTR name is `babyserver.cern.ch.`, while its CNAME is
`alias.cern.ch.`. -/
def dnsEnv0 : DNSEnv where
  lookupIP := fun _ => .ok [⟨"188.184.9.234", true⟩]
  lookupAddr := fun _ => .ok ["babyserver.cern.ch."]
  lookupCNAME := fun _ => .ok "alias.cern.ch."

/-- Witness for `resolveFQDN_forward_then_reverse` in `dnsEnv0`: the
`part_001` resolver returns the dot-trimmed PTR name. -/
theorem resolveFQDN_forward_then_reverse_witness :
    resolveFQDN_p1 dnsEnv0 "certmgr-alias.cern.ch" = .ok "babyserver.cern.ch" := by
  have hmain := resolveFQDN_forward_then_reverse dnsEnv0 "certmgr-alias.cern.ch"
  have h3 := hmain.2.2.1 [⟨"188.184.9.234", true⟩] ⟨"188.184.9.234", true⟩ rfl rfl
  have hfin := h3.2.2 "babyserver.cern.ch." [] rfl
  rw [hfin]
  rfl

/-- Counterexample to C8 as stated: in `dnsEnv0` the `client.go` resolver
returns the raw CNAME answer, not the PTR name of the first IPv4 address
that the claim describes (and that the `part_001` resolver returns): no
reverse lookup is performed at all in that variant. -/
theorem resolveFQDN_cgo_skips_reverse_lookup :
    resolveFQDN_cgo dnsEnv0 "certmgr-alias.cern.ch" = .ok "alias.cern.ch." ∧
    resolveLoop_p1 dnsEnv0 "certmgr-alias.cern.ch" [⟨"188.184.9.234", true⟩] =
      .ok "babyserver.cern.ch" ∧
    ("alias.cern.ch." : String) ≠ "babyserver.cern.ch" := ⟨rfl, rfl, by decide⟩

end CertMgr
